import Mathlib

/-!
Verification of the rclone IPFS backend (`backend/ipfs`): a shallow
embedding of the size codec (`convertSmallFileSize`, `convertToFileSize`),
the root binding classification (`NewRoot`), the mutation entry points
(`Put`, `Mkdir`, `Rmdir`, `DirMove`, `Purge`, `Object.Remove`,
`Object.Update`) and the persistence/reconciliation protocol
(`persist`, `persistToMFS`, `persistToIPNS`).

Remote calls go through an explicit API oracle (a record of pure
functions, plus an explicit world state for the MFS-mutating calls), and
every operation additionally returns the list of remote calls it issued,
so that "no remote call is made" properties are expressible.  Go `panic`
and Go `error` returns are both modelled as `Except` errors; machine
integers (`int64`) are modelled as `Int` (all arithmetic here is far from
the 64-bit boundary, and Go truncated division/remainder is `Int.tdiv` /
`Int.tmod`).
-/

namespace Ipfs

/-- Error produced by a remote API call: `err` models a decoded
`*api.Error`, `other` any other (e.g. transport) failure; the code
distinguishes them with a type assertion. -/
inductive ApiErr where
  | err
  | other
deriving DecidableEq, Repr

/-- Result of `/api/v0/object/stat` (api/types.go `Stat`), restricted to the
fields the embedded code reads. -/
structure Stat where
  hash : String
  numLinks : Int
  blockSize : Int
  cumulativeSize : Int
deriving DecidableEq, Repr

/-- ipfs.go: `const MaxChunkSize = int64(262144)` — max size of an IPFS
object data after which the IPFS chunker chunks the original file. -/
def MaxChunkSize : Int := 262144

/-- ipfs.go `convertSmallFileSize`: convert IPFS object cumulative size to
actual file size, only for small files of cumulative size < 262267. -/
def convertSmallFileSize (cumulativeSize : Int) : Int :=
  if cumulativeSize = 0 then 0
  else if cumulativeSize < 9 then cumulativeSize - 6
  else if cumulativeSize < 131 then cumulativeSize - 8
  else if cumulativeSize < 139 then cumulativeSize - 9
  else if cumulativeSize < 16388 then cumulativeSize - 11
  else if cumulativeSize < 16398 then cumulativeSize - 12
  else cumulativeSize - 14

/-- ipfs.go `(*Fs) convertToFileSize`: convert IPFS object stat to actual
file size (single-chunk branch below `MaxChunkSize + 123`, multi-chunk
branch above).  Go `/` and `%` on `int64` are `Int.tdiv` / `Int.tmod`. -/
def convertToFileSize (cumulativeSize blockSize : Int) : Int :=
  if cumulativeSize < MaxChunkSize + 123 then
    convertSmallFileSize cumulativeSize
  else
    let i := cumulativeSize - blockSize
    let maxSizeChunks := Int.tdiv i (MaxChunkSize + 14)
    let remainingSizeChunk := Int.tmod i (MaxChunkSize + 14)
    i - (maxSizeChunks * 14) - (remainingSizeChunk - convertSmallFileSize remainingSizeChunk)

/-- ipfs.go `Object`: a stat'd remote object (the `fs` back-pointer is
dropped; it plays no role in the embedded code). -/
structure Object where
  remote : String
  size : Int
  ipfsHash : String
deriving DecidableEq, Repr

/-- ipfs.go `newObject`: builds an `Object` from a stat, decoding its size
with `convertToFileSize`. -/
def newObject (remote : String) (stat : Stat) : Object :=
  { remote := remote
    size := convertToFileSize stat.cumulativeSize stat.blockSize
    ipfsHash := stat.hash }

/-- ipfs.go `(*Object) Size`: returns the recorded size field. -/
def objectSizeMethod (o : Object) : Int :=
  o.size

/-- api/types.go `ObjectChange`: one entry of `/api/v0/object/diff`.
The Go `Before`/`After` fields are `map[string]string` JSON-link objects;
the code only tests them against `nil` and reads `After["/"]`, so they are
modelled by the optional link target. -/
structure ObjectChange where
  path : String
  before : Option String
  after : Option String
deriving DecidableEq, Repr

/-- api/types.go `Diff`: result of `/api/v0/object/diff`. -/
structure Diff where
  changes : List ObjectChange
deriving DecidableEq, Repr

/-- root.go `Root`: the mutable root handle (the `api` pointer and the
lock are replaced by the explicit oracle / sequential execution). -/
structure Root where
  initialHash : String
  hash : String
  ipnsPath : String
  ipnsKey : String
  isMFS : Bool
  isReadOnly : Bool
deriving DecidableEq, Repr

/-- One remote API call, recorded in call traces. -/
inductive Call where
  | filesStat (p : String)
  | objectDiff (a b : String)
  | filesRm (p : String)
  | filesCp (src dst : String)
  | nameResolve (p : String)
  | namePublish (hash key : String)
deriving DecidableEq, Repr

/-- `true` exactly for the calls that mutate the external pointer
(remove, copy, publish). -/
def isMutationCall : Call → Bool
  | .filesRm _ => true
  | .filesCp _ _ => true
  | .namePublish _ _ => true
  | _ => false

/-- Why a persistence run aborted: a failed remote call, or the
concurrent-modification consistency panic (both are Go `panic`s in
root.go). -/
inductive PersistErr where
  | apiError
  | concurrentModification
deriving DecidableEq, Repr

/-- The remote node as seen by root.go's persistence code.  `σ` is the
state of the external MFS; `filesStat` reads its root hash, `filesRm` and
`filesCp` transform it.  `objectDiff`, `nameResolve` and `namePublish`
are read-only oracles. -/
structure PersistEnv (σ : Type) where
  filesStat : σ → Except ApiErr String
  objectDiff : String → String → Except ApiErr Diff
  filesRm : String → σ → Except ApiErr σ
  filesCp : String → String → σ → Except ApiErr σ
  nameResolve : String → Except ApiErr String
  namePublish : String → String → Except ApiErr Unit

/-- Result of one persistence run: the remote calls issued (in order),
the outcome (`error` = Go panic), and the root state and external world
as they stand when the run ends or panics. -/
structure PersistResult (σ : Type) where
  calls : List Call
  outcome : Except PersistErr Unit
  root : Root
  world : σ

/-- Go `strings.HasPrefix(s, pre)`: `s` starts with `pre`. -/
def goHasPrefix (s pre : String) : Bool :=
  List.isPrefixOf pre.data s.data

/-- The `/` character (written via its code point). -/
def forwardSlash : Char := Char.ofNat 47

/-- Spec-side notion for C1/C2: `a` is a path-prefix of `b` — the edit at
`a` touches `b` itself or an ancestor of `b` (`a = b`, or `b` extends `a`
with a `/`-separated suffix). -/
def isPathAncestorOf (a b : String) : Bool :=
  decide (a = b) || List.isPrefixOf (a.data ++ [forwardSlash]) b.data

/-- root.go `listChangedPath`: the paths of a change list. -/
def listChangedPath (changes : List ObjectChange) : List String :=
  changes.map (fun change => change.path)

/-- root.go lines 161–168: the nested loop over external and local
changed paths, panicking on the first pair where one is a Go string
prefix of the other. -/
def hasConflict (externalChangedPaths localChangedPaths : List String) : Bool :=
  externalChangedPaths.any (fun externalChangedPath =>
    localChangedPaths.any (fun localChangedPath =>
      goHasPrefix externalChangedPath localChangedPath ||
        goHasPrefix localChangedPath externalChangedPath))

/-- Second half of applying one diff entry (root.go lines 180–186): if
`After` is present, copy the new node into place. -/
def applyChangeAfter {σ : Type} (env : PersistEnv σ) (change : ObjectChange)
    (w : σ) (cs : List Call) : List Call × σ × Except ApiErr Unit :=
  match change.after with
  | some afterHash =>
    let absolutePath := "/ipfs/" ++ afterHash
    let filePath := "/" ++ change.path
    match env.filesCp absolutePath filePath w with
    | .error e => (cs ++ [Call.filesCp absolutePath filePath], w, .error e)
    | .ok w1 => (cs ++ [Call.filesCp absolutePath filePath], w1, .ok ())
  | none => (cs, w, .ok ())

/-- Applying one diff entry (root.go lines 172–187): remove when `Before`
is present, then copy when `After` is present; any failed call panics. -/
def applyChange {σ : Type} (env : PersistEnv σ) (change : ObjectChange)
    (w : σ) : List Call × σ × Except ApiErr Unit :=
  let filePath := "/" ++ change.path
  match change.before with
  | some _ =>
    match env.filesRm filePath w with
    | .error e => ([Call.filesRm filePath], w, .error e)
    | .ok w1 => applyChangeAfter env change w1 [Call.filesRm filePath]
  | none => applyChangeAfter env change w []

/-- The `for _, change := range diff.Changes` loop of root.go, applying
the diff entries in order and stopping at the first failed call. -/
def applyChanges {σ : Type} (env : PersistEnv σ) :
    List ObjectChange → σ → List Call × σ × Except ApiErr Unit
  | [], w => ([], w, .ok ())
  | change :: rest, w =>
    match applyChange env change w with
    | (cs, w1, .error e) => (cs, w1, .error e)
    | (cs, w1, .ok _) =>
      let (cs2, w2, r2) := applyChanges env rest w1
      (cs ++ cs2, w2, r2)

/-- The calls a single diff entry issues when fully applied: a remove for
a present `Before`, then a copy of the new node for a present `After`. -/
def changeCalls (change : ObjectChange) : List Call :=
  (match change.before with
   | some _ => [Call.filesRm ("/" ++ change.path)]
   | none => []) ++
  (match change.after with
   | some afterHash => [Call.filesCp ("/ipfs/" ++ afterHash) ("/" ++ change.path)]
   | none => [])

/-- The canonical mutation-call sequence of a change list: each entry's
calls, in diff order. -/
def canonicalCalls : List ObjectChange → List Call
  | [] => []
  | change :: rest => changeCalls change ++ canonicalCalls rest

/-- Tail of root.go `persistToMFS` (lines 171–198): apply the local diff
onto the MFS, then re-stat the MFS root and advance both `hash` and
`initialHash` to the freshly observed hash. -/
def persistApply {σ : Type} (env : PersistEnv σ) (r : Root) (w : σ)
    (cs : List Call) (diff : Diff) : PersistResult σ :=
  match applyChanges env diff.changes w with
  | (cs1, w1, .error _) => ⟨cs ++ cs1, .error .apiError, r, w1⟩
  | (cs1, w1, .ok _) =>
    match env.filesStat w1 with
    | .error _ => ⟨cs ++ cs1 ++ [Call.filesStat "/"], .error .apiError, r, w1⟩
    | .ok statHash2 =>
      ⟨cs ++ cs1 ++ [Call.filesStat "/"], .ok (),
       { r with hash := statHash2, initialHash := statHash2 }, w1⟩

/-- root.go `persistToMFS`: stat the external MFS root, diff the
session's edits, abort on a detected concurrent modification, otherwise
apply the local diff and advance the hashes. -/
def persistToMFS {σ : Type} (env : PersistEnv σ) (r : Root) (w : σ) :
    PersistResult σ :=
  match env.filesStat w with
  | .error _ => ⟨[Call.filesStat "/"], .error .apiError, r, w⟩
  | .ok statHash =>
    let c1 := [Call.filesStat "/", Call.objectDiff r.initialHash r.hash]
    match env.objectDiff r.initialHash r.hash with
    | .error _ => ⟨c1, .error .apiError, r, w⟩
    | .ok diff =>
      if statHash ≠ r.initialHash then
        let c2 := c1 ++ [Call.objectDiff statHash r.initialHash]
        match env.objectDiff statHash r.initialHash with
        | .error _ => ⟨c2, .error .apiError, r, w⟩
        | .ok externalDiff =>
          if hasConflict (listChangedPath externalDiff.changes)
              (listChangedPath diff.changes) then
            ⟨c2, .error .concurrentModification, r, w⟩
          else
            persistApply env r w c2 diff
      else
        persistApply env r w c1 diff

/-- Go `path.Split`: splits after the final slash; no slash gives an
empty directory part. -/
def pathSplit (p : String) : String × String :=
  match p.data.reverse.findIdx? (fun c => c == forwardSlash) with
  | none => ("", p)
  | some k =>
    let n := p.data.length - k
    (⟨p.data.take n⟩, ⟨p.data.drop n⟩)

/-- root.go `persistToIPNS`: re-resolve the IPNS name, abort if it no
longer resolves to `initialHash`, otherwise publish `hash` and advance
`initialHash`. -/
def persistToIPNS {σ : Type} (env : PersistEnv σ) (r : Root) (w : σ) :
    PersistResult σ :=
  match env.nameResolve r.ipnsPath with
  | .error _ => ⟨[Call.nameResolve r.ipnsPath], .error .apiError, r, w⟩
  | .ok resolvedPath =>
    let ipfsHash := (pathSplit resolvedPath).2
    if r.initialHash ≠ ipfsHash then
      ⟨[Call.nameResolve r.ipnsPath], .error .concurrentModification, r, w⟩
    else
      let c1 := [Call.nameResolve r.ipnsPath, Call.namePublish r.hash r.ipnsKey]
      match env.namePublish r.hash r.ipnsKey with
      | .error _ => ⟨c1, .error .apiError, r, w⟩
      | .ok _ => ⟨c1, .ok (), { r with initialHash := r.hash }, w⟩

/-- root.go `persist`: no-op when `hash == initialHash`, otherwise
persist to MFS or (with a signing key) to IPNS. -/
def persist {σ : Type} (env : PersistEnv σ) (r : Root) (w : σ) :
    PersistResult σ :=
  if r.hash = r.initialHash then ⟨[], .ok (), r, w⟩
  else if r.isMFS then persistToMFS env r w
  else if r.ipnsKey ≠ "" then persistToIPNS env r w
  else ⟨[], .ok (), r, w⟩

/-- Concrete MFS-bound root with a dirty session (`initial = "A"`,
`current = "C"`), used by witness scenarios. -/
def dirtyRoot : Root :=
  { initialHash := "A", hash := "C", ipnsPath := "", ipnsKey := ""
    isMFS := true, isReadOnly := false }

/-- Concrete MFS-bound root with a clean session (`current = initial`). -/
def cleanRoot : Root :=
  { initialHash := "A", hash := "A", ipnsPath := "", ipnsKey := ""
    isMFS := true, isReadOnly := false }

/-- Witness environment for C1: the external pointer moved to `"B"`; the
external session edited `x`, the local session edited `x/sub`. -/
def conflictEnv : PersistEnv Unit :=
  { filesStat := fun _ => .ok "B"
    objectDiff := fun a b =>
      if a = "A" ∧ b = "C" then .ok ⟨[⟨"x/sub", none, some "H1"⟩]⟩
      else if a = "B" ∧ b = "A" then .ok ⟨[⟨"x", none, some "H2"⟩]⟩
      else .error .err
    filesRm := fun _ w => .ok w
    filesCp := fun _ _ w => .ok w
    nameResolve := fun _ => .error .err
    namePublish := fun _ _ => .error .err }

/-- Counterexample environment for C2: the external session edited the
top-level entry `x`, the local session edited the unrelated sibling
top-level entry `xy` (no ancestor/descendant relation, but `x` is a raw
string prefix of `xy`). -/
def siblingEnv : PersistEnv Unit :=
  { filesStat := fun _ => .ok "B"
    objectDiff := fun a b =>
      if a = "A" ∧ b = "C" then .ok ⟨[⟨"xy", none, some "H1"⟩]⟩
      else if a = "B" ∧ b = "A" then .ok ⟨[⟨"x", none, some "H2"⟩]⟩
      else .error .err
    filesRm := fun _ w => .ok w
    filesCp := fun _ _ w => .ok w
    nameResolve := fun _ => .error .err
    namePublish := fun _ _ => .error .err }

/-- Model MFS world for the C2 witness: an association list from path to
link target. -/
abbrev MfsWorld : Type := List (String × String)

/-- Root hash of a model MFS world: an injective rendering of its
entries (stands in for the content hash the store would report). -/
def worldHash (w : MfsWorld) : String :=
  String.join (w.map (fun entry => entry.1 ++ "=" ++ entry.2 ++ ";"))

/-- The C2 witness world after the concurrent external edit: the external
session already copied `Hx` to `/x`. -/
def extWorld : MfsWorld := [("/x", "/ipfs/Hx")]

/-- api/types.go `Key` (one entry of `/api/v0/key/list`): `Id`, `Name`. -/
structure Key where
  id : String
  name : String
deriving DecidableEq, Repr

/-- The read-only public gateway endpoint (`PublicGateway`).  The
theorems only compare endpoint strings against this constant, so its
exact value is immaterial. -/
def PublicGateway : String := "https://ipfs.io"

/-- Errors of root.go `NewRoot`: a propagated remote-call error, the
"read only public IPFS gateway can't use MFS" error, or the
"Invalid IPFS path" error. -/
inductive NewRootError where
  | apiError
  | gatewayCannotBeMutableRoot
  | invalidBindingPath
deriving DecidableEq, Repr

/-- Oracle for the remote calls `NewRoot` makes: `KeyList`,
`NameResolve` (returning `result.Path`) and `FilesStat "/"` (returning
`stat.Hash`). -/
structure NewRootEnv where
  keyList : Except ApiErr (List Key)
  nameResolve : String → Except ApiErr String
  filesStatRoot : Except ApiErr String

/-- root.go lines 46–51: the first listed key whose `Id` equals the IPNS
name, or `""` when none matches. -/
def findIpnsKey (keys : List Key) (ipnsHash : String) : String :=
  match keys.find? (fun k => k.id == ipnsHash) with
  | some k => k.name
  | none => ""

/-- root.go lines 84–92: the single `Root` construction site, with
`isReadOnly = isGateWay || !(isMFS || ipnsKey != "")`. -/
def mkNewRoot (hash ipnsPath ipnsKey : String) (isMFS isGateWay : Bool) : Root :=
  { initialHash := hash, hash := hash, ipnsPath := ipnsPath
    ipnsKey := ipnsKey, isMFS := isMFS
    isReadOnly := isGateWay || !(isMFS || decide (ipnsKey ≠ "")) }

/-- root.go `NewRoot`: classify `--ipfs-root` into an IPFS path, an IPNS
path, the MFS root, or an invalid path, resolving the initial hash. -/
def NewRoot (ipfsRoot endpoint : String) (env : NewRootEnv) :
    Except NewRootError Root :=
  let isGateWay : Bool := decide (endpoint = PublicGateway)
  let base := (pathSplit ipfsRoot).1
  let hash0 := (pathSplit ipfsRoot).2
  if base = "/ipfs/" then
    .ok (mkNewRoot hash0 "" "" false isGateWay)
  else if base = "/ipns/" then
    if isGateWay then
      match env.nameResolve ipfsRoot with
      | .error _ => .error .apiError
      | .ok resolvedPath =>
        .ok (mkNewRoot (pathSplit resolvedPath).2 ipfsRoot "" false isGateWay)
    else
      match env.keyList with
      | .error _ => .error .apiError
      | .ok keys =>
        match env.nameResolve ipfsRoot with
        | .error _ => .error .apiError
        | .ok resolvedPath =>
          .ok (mkNewRoot (pathSplit resolvedPath).2 ipfsRoot
            (findIpnsKey keys hash0) false isGateWay)
  else if ipfsRoot = "" then
    if isGateWay then
      .error .gatewayCannotBeMutableRoot
    else
      match env.filesStatRoot with
      | .error _ => .error .apiError
      | .ok statHash => .ok (mkNewRoot statHash "" "" true isGateWay)
  else
    .error .invalidBindingPath

/-- root.go lines 94–104: persistence callbacks (periodic and at-exit)
are registered exactly for handles that are not read-only. -/
def registersPersistence (r : Root) : Bool :=
  !r.isReadOnly

/-- Go `path.Join` for already-clean components (all paths used in the
theorems are clean, so no `Clean` normalization is needed). -/
def pathJoin (a b : String) : String :=
  if a = "" then b else if b = "" then a else a ++ "/" ++ b

/-- ipfs.go `(*Fs) relativePath`: join the Fs root with the remote name
and strip a leading slash. -/
def relativePath (froot remote : String) : String :=
  let p := pathJoin froot remote
  if goHasPrefix p "/" then String.mk (p.data.drop 1) else p

/-- api/types.go `Link` (one `/api/v0/ls` entry), restricted to the
fields the embedded code reads. -/
structure Link where
  name : String
  hash : String
  type : Int
deriving DecidableEq, Repr

/-- api/types.go: `FileEntryTypeFile = 0`. -/
def FileEntryTypeFile : Int := 0

/-- Remote calls made by the Fs-level operations. -/
inductive FsCall where
  | add (file : String)
  | objectStat (p : String)
  | objectPatchAddLink (root p link : String)
  | objectPatchRmLink (root p : String)
  | objectNewDir
  | ls (p : String)
deriving DecidableEq, Repr

/-- Errors surfaced by the Fs-level operations: a raw remote error, or
one of the sentinel `fs.Error*` values the code converts typed API
errors into. -/
inductive FsError where
  | api (e : ApiErr)
  | errorDirNotFound
  | errorDirectoryNotEmpty
  | errorDirExists
  | errorObjectNotFound
  | errorNotAFile
deriving DecidableEq, Repr

/-- The remote node as seen by the Fs-level operations.  `ApiErr.err`
models a decoded `*api.Error`; `ApiErr.other` any other failure (the
code distinguishes them with a type assertion). -/
structure FsApi where
  add : String → Except ApiErr String
  objectStat : String → Except ApiErr Stat
  objectPatchAddLink : String → String → String → Except ApiErr String
  objectPatchRmLink : String → String → Except ApiErr String
  objectNewDir : Except ApiErr String
  ls : String → Except ApiErr (List Link)

/-- ipfs.go `(*Fs) isFile`: look the entry up in its parent directory
listing; a lookup error is reported as not-a-file (the caller discards
the error). -/
def isFileOp (api : FsApi) (r : Root) (froot remote : String) :
    List FsCall × Bool :=
  let absolutePath := pathJoin r.hash (relativePath froot remote)
  let dir := (pathSplit absolutePath).1
  let file := (pathSplit absolutePath).2
  if dir = r.hash then ([], false)
  else
    match api.ls dir with
    | .error _ => ([FsCall.ls dir], false)
    | .ok links =>
      ([FsCall.ls dir],
       match links.find? (fun link => link.name == file) with
       | some link => decide (link.type = FileEntryTypeFile)
       | none => false)

/-- ipfs.go `(*Fs) NewObject`: stat the object (converting a typed API
error into `ErrorObjectNotFound`), then require it to be a file. -/
def newObjectOp (api : FsApi) (r : Root) (froot remote : String) :
    List FsCall × Except FsError Object :=
  let absolutePath := pathJoin r.hash (relativePath froot remote)
  match api.objectStat absolutePath with
  | .error e =>
    ([FsCall.objectStat absolutePath],
     .error (match e with
             | .err => FsError.errorObjectNotFound
             | .other => FsError.api e))
  | .ok stat =>
    let p := isFileOp api r froot remote
    ([FsCall.objectStat absolutePath] ++ p.1,
     if p.2 then .ok (newObject remote stat) else .error .errorNotAFile)

/-- ipfs.go `(*Fs) Put`: add the stream, patch the new link into the
root hash under the write lock, then stat the object back. -/
def putOp (api : FsApi) (r : Root) (froot srcRemote : String) :
    List FsCall × Except FsError Object × Root :=
  let file := (pathSplit srcRemote).2
  match api.add file with
  | .error e => ([FsCall.add file], .error (.api e), r)
  | .ok addedHash =>
    let objectPath := relativePath froot srcRemote
    match api.objectPatchAddLink r.hash objectPath addedHash with
    | .error e =>
      ([FsCall.add file, FsCall.objectPatchAddLink r.hash objectPath addedHash],
       .error (.api e), r)
    | .ok newHash =>
      let r1 := { r with hash := newHash }
      let p := newObjectOp api r1 froot srcRemote
      ([FsCall.add file, FsCall.objectPatchAddLink r.hash objectPath addedHash]
         ++ p.1, p.2, r1)

/-- ipfs.go `(*Fs) Mkdir`: fetch the empty-directory hash, then patch it
in under the write lock (the `_emptyDirHash` memoization is dropped:
this is the first-call behavior). -/
def mkdirOp (api : FsApi) (r : Root) (froot dir : String) :
    List FsCall × Option FsError × Root :=
  match api.objectNewDir with
  | .error e => ([FsCall.objectNewDir], some (.api e), r)
  | .ok emptyDirHash =>
    let dirPath := relativePath froot dir
    match api.objectPatchAddLink r.hash dirPath emptyDirHash with
    | .error e =>
      ([FsCall.objectNewDir,
        FsCall.objectPatchAddLink r.hash dirPath emptyDirHash],
       some (.api e), r)
    | .ok newHash =>
      ([FsCall.objectNewDir,
        FsCall.objectPatchAddLink r.hash dirPath emptyDirHash],
       none, { r with hash := newHash })

/-- ipfs.go `(*Fs) Rmdir`: stat the directory (typed API error becomes
`ErrorDirNotFound`), reject non-empty directories, then remove the
link. -/
def rmdirOp (api : FsApi) (r : Root) (froot dir : String) :
    List FsCall × Option FsError × Root :=
  let absolutePath := pathJoin r.hash (relativePath froot dir)
  match api.objectStat absolutePath with
  | .error e =>
    ([FsCall.objectStat absolutePath],
     some (match e with
           | .err => FsError.errorDirNotFound
           | .other => FsError.api e), r)
  | .ok stat =>
    if stat.numLinks > 0 then
      ([FsCall.objectStat absolutePath], some .errorDirectoryNotEmpty, r)
    else
      let dirPath := relativePath froot dir
      match api.objectPatchRmLink r.hash dirPath with
      | .error e =>
        ([FsCall.objectStat absolutePath,
          FsCall.objectPatchRmLink r.hash dirPath],
         some (.api e), r)
      | .ok newHash =>
        ([FsCall.objectStat absolutePath,
          FsCall.objectPatchRmLink r.hash dirPath],
         none, { r with hash := newHash })

/-- ipfs.go `(*Fs) Purge`: an empty Fs root resets the hash to the
empty-directory hash; otherwise the Fs root link is removed. -/
def purgeOp (api : FsApi) (r : Root) (froot : String) :
    List FsCall × Option FsError × Root :=
  if froot = "" then
    match api.objectNewDir with
    | .error e => ([FsCall.objectNewDir], some (.api e), r)
    | .ok emptyDirHash =>
      ([FsCall.objectNewDir], none, { r with hash := emptyDirHash })
  else
    match api.objectPatchRmLink r.hash froot with
    | .error e =>
      ([FsCall.objectPatchRmLink r.hash froot], some (.api e), r)
    | .ok newHash =>
      ([FsCall.objectPatchRmLink r.hash froot], none,
       { r with hash := newHash })

/-- ipfs.go `(*Object) Remove`: remove the object's link (typed API
error becomes `ErrorObjectNotFound`). -/
def removeOp (api : FsApi) (r : Root) (froot remote : String) :
    List FsCall × Option FsError × Root :=
  let objectPath := relativePath froot remote
  match api.objectPatchRmLink r.hash objectPath with
  | .error e =>
    ([FsCall.objectPatchRmLink r.hash objectPath],
     some (match e with
           | .err => FsError.errorObjectNotFound
           | .other => FsError.api e), r)
  | .ok newHash =>
    ([FsCall.objectPatchRmLink r.hash objectPath], none,
     { r with hash := newHash })

/-- ipfs.go `(*Fs) DirMove`: require the destination stat to fail (a
successful stat is `ErrorDirExists`; the stat error itself is
discarded), stat the source, add the destination link (first hash
assignment), then remove the source link (second hash assignment). -/
def dirMoveOp (api : FsApi) (r : Root)
    (froot srcRoot srcRemote dstRemote : String) :
    List FsCall × Option FsError × Root :=
  let dstRelativePath := relativePath froot dstRemote
  let destAbsolutePath := pathJoin r.hash dstRelativePath
  match api.objectStat destAbsolutePath with
  | .ok _ => ([FsCall.objectStat destAbsolutePath], some .errorDirExists, r)
  | .error _ =>
    let srcRelativePath := relativePath srcRoot srcRemote
    let srcAbsolutePath := pathJoin r.hash srcRelativePath
    match api.objectStat srcAbsolutePath with
    | .error e =>
      ([FsCall.objectStat destAbsolutePath, FsCall.objectStat srcAbsolutePath],
       some (.api e), r)
    | .ok srcStat =>
      match api.objectPatchAddLink r.hash dstRelativePath srcStat.hash with
      | .error e =>
        ([FsCall.objectStat destAbsolutePath,
          FsCall.objectStat srcAbsolutePath,
          FsCall.objectPatchAddLink r.hash dstRelativePath srcStat.hash],
         some (.api e), r)
      | .ok h1 =>
        let r1 := { r with hash := h1 }
        match api.objectPatchRmLink r1.hash srcRelativePath with
        | .error e =>
          ([FsCall.objectStat destAbsolutePath,
            FsCall.objectStat srcAbsolutePath,
            FsCall.objectPatchAddLink r.hash dstRelativePath srcStat.hash,
            FsCall.objectPatchRmLink r1.hash srcRelativePath],
           some (.api e), r1)
        | .ok h2 =>
          ([FsCall.objectStat destAbsolutePath,
            FsCall.objectStat srcAbsolutePath,
            FsCall.objectPatchAddLink r.hash dstRelativePath srcStat.hash,
            FsCall.objectPatchRmLink r1.hash srcRelativePath],
           none, { r1 with hash := h2 })

/-- Outcome of ipfs.go `(*Object) Update`: either the nil-pointer panic
of `o.size = o2.Size()` with `o2 = nil`, or a normal return with the
updated object and the returned error. -/
inductive UpdateOutcome where
  | panicked
  | normal (o : Object) (err : Option FsError)
deriving DecidableEq, Repr

/-- ipfs.go `(*Object) Update`: call `Put`, then unconditionally
dereference the returned object to copy its size before returning
`Put`'s error.  When `Put` errs it returns a nil object, so the
dereference panics. -/
def updateOp (api : FsApi) (r : Root) (froot : String) (o : Object)
    (srcRemote : String) : List FsCall × UpdateOutcome × Root :=
  match putOp api r froot srcRemote with
  | (cs, .error _, r1) => (cs, .panicked, r1)
  | (cs, .ok o2, r1) => (cs, .normal { o with size := o2.size } none, r1)

/-- Witness oracle for `NewRoot`: one signing key `K1` named `mykey`,
`/ipns/K1` resolving to `/ipfs/QmResolved`, MFS root hash
`QmRootHash`. -/
def newRootEnv1 : NewRootEnv :=
  { keyList := .ok [⟨"K1", "mykey"⟩]
    nameResolve := fun p =>
      if p = "/ipns/K1" then .ok "/ipfs/QmResolved" else .error .err
    filesStatRoot := .ok "QmRootHash" }

/-- An all-succeeding Fs API, used to show mutations on read-only roots
execute in full. -/
def allOkApi : FsApi :=
  { add := fun _ => .ok "QmAdded"
    objectStat := fun _ =>
      .ok { hash := "QmStat", numLinks := 0, blockSize := 4, cumulativeSize := 10 }
    objectPatchAddLink := fun _ _ _ => .ok "QmNewRoot"
    objectPatchRmLink := fun _ _ => .ok "QmAfterRm"
    objectNewDir := .ok "QmEmptyDir"
    ls := fun _ => .ok [{ name := "f.txt", hash := "QmF", type := 0 }] }

/-- An all-failing Fs API. -/
def failApi : FsApi :=
  { add := fun _ => .error .other
    objectStat := fun _ => .error .err
    objectPatchAddLink := fun _ _ _ => .error .other
    objectPatchRmLink := fun _ _ => .error .other
    objectNewDir := .error .other
    ls := fun _ => .error .err }

/-- Fs API for the C4 counterexample: the destination stat fails (so
DirMove proceeds), the source stat and the add-link succeed, and the
final remove-link fails. -/
def dirMoveFailApi : FsApi :=
  { add := fun _ => .error .other
    objectStat := fun p =>
      if p = "H0/dst" then .error .err
      else .ok { hash := "QmSrcDir", numLinks := 1, blockSize := 0, cumulativeSize := 0 }
    objectPatchAddLink := fun _ _ _ => .ok "H1INTER"
    objectPatchRmLink := fun _ _ => .error .other
    objectNewDir := .ok "QmEmptyDir"
    ls := fun _ => .error .err }

/-- A writable MFS root at hash `H0`, used by the mutation-operation
scenarios. -/
def dm0 : Root :=
  { initialHash := "H0", hash := "H0", ipnsPath := "", ipnsKey := ""
    isMFS := true, isReadOnly := false }

/-- Fs API where only `add` succeeds, so `Put` fails at the add-link
call. -/
def addOnlyApi : FsApi :=
  { add := fun _ => .ok "QmAdded"
    objectStat := fun _ => .error .err
    objectPatchAddLink := fun _ _ _ => .error .err
    objectPatchRmLink := fun _ _ => .error .err
    objectNewDir := .error .err
    ls := fun _ => .error .err }

/-- A stat'd object, used by the `Update` scenario. -/
def obj0 : Object :=
  { remote := "f.txt", size := 7, ipfsHash := "QmOld" }

/-- Witness environment for C2 over the model MFS: the external pointer
moved (its hash differs from `"A"`); the external diff touches `x`, the
local diff touches `y`; rm and cp act on the association list. -/
def mergeEnv : PersistEnv MfsWorld :=
  { filesStat := fun w => .ok (worldHash w)
    objectDiff := fun a b =>
      if a = "A" ∧ b = "C" then .ok ⟨[⟨"y", none, some "Hy"⟩]⟩
      else if a = worldHash extWorld ∧ b = "A" then .ok ⟨[⟨"x", none, some "H2"⟩]⟩
      else .error .err
    filesRm := fun p w => .ok (w.filter (fun entry => entry.1 != p))
    filesCp := fun src dst w => .ok (w ++ [(dst, src)])
    nameResolve := fun _ => .error .err
    namePublish := fun _ _ => .error .err }

end Ipfs

namespace Ipfs

/-- C5: for every cumulativeSize below the single-chunk threshold
`MaxChunkSize + 123 = 262267`, the decoded logical size is 0 when the
cumulative size is 0, and otherwise equals the cumulative size minus an
overhead of exactly 6, 8, 9, 11, 12 or 14 bytes, stepping up precisely
after the bracket boundaries 8, 130, 138, 16387 and 16397. -/
theorem convertToFileSize_small_brackets (c b : Int) (h : c < MaxChunkSize + 123) :
    convertToFileSize c b =
      if c = 0 then 0
      else c - (if c < 9 then 6
                else if c < 131 then 8
                else if c < 139 then 9
                else if c < 16388 then 11
                else if c < 16398 then 12
                else 14) := by
  unfold convertToFileSize
  rw [if_pos h]
  unfold convertSmallFileSize
  split_ifs <;> omega

/-- Witness for C5 at the bracket boundaries 0, 8, 9, 130, 131, 138, 139,
16387, 16388, 16397, 16398 (all below the threshold 262267). -/
theorem convertToFileSize_small_brackets_witness :
    ((0 : Int) < MaxChunkSize + 123 ∧ convertToFileSize 0 0 = 0) ∧
    ((8 : Int) < MaxChunkSize + 123 ∧ convertToFileSize 8 0 = 2) ∧
    ((9 : Int) < MaxChunkSize + 123 ∧ convertToFileSize 9 0 = 1) ∧
    ((130 : Int) < MaxChunkSize + 123 ∧ convertToFileSize 130 0 = 122) ∧
    ((131 : Int) < MaxChunkSize + 123 ∧ convertToFileSize 131 0 = 122) ∧
    ((138 : Int) < MaxChunkSize + 123 ∧ convertToFileSize 138 0 = 129) ∧
    ((139 : Int) < MaxChunkSize + 123 ∧ convertToFileSize 139 0 = 128) ∧
    ((16387 : Int) < MaxChunkSize + 123 ∧ convertToFileSize 16387 0 = 16376) ∧
    ((16388 : Int) < MaxChunkSize + 123 ∧ convertToFileSize 16388 0 = 16376) ∧
    ((16397 : Int) < MaxChunkSize + 123 ∧ convertToFileSize 16397 0 = 16385) ∧
    ((16398 : Int) < MaxChunkSize + 123 ∧ convertToFileSize 16398 0 = 16384) :=
  ⟨⟨by decide, by rw [convertToFileSize_small_brackets 0 0 (by decide)]; decide⟩,
   ⟨by decide, by rw [convertToFileSize_small_brackets 8 0 (by decide)]; decide⟩,
   ⟨by decide, by rw [convertToFileSize_small_brackets 9 0 (by decide)]; decide⟩,
   ⟨by decide, by rw [convertToFileSize_small_brackets 130 0 (by decide)]; decide⟩,
   ⟨by decide, by rw [convertToFileSize_small_brackets 131 0 (by decide)]; decide⟩,
   ⟨by decide, by rw [convertToFileSize_small_brackets 138 0 (by decide)]; decide⟩,
   ⟨by decide, by rw [convertToFileSize_small_brackets 139 0 (by decide)]; decide⟩,
   ⟨by decide, by rw [convertToFileSize_small_brackets 16387 0 (by decide)]; decide⟩,
   ⟨by decide, by rw [convertToFileSize_small_brackets 16388 0 (by decide)]; decide⟩,
   ⟨by decide, by rw [convertToFileSize_small_brackets 16397 0 (by decide)]; decide⟩,
   ⟨by decide, by rw [convertToFileSize_small_brackets 16398 0 (by decide)]; decide⟩⟩

/-- C6: for every cumulativeSize at or above the chunking threshold
`MaxChunkSize + 123`, the decoded logical size is computed from
`i = cumulativeSize - blockSize` by subtracting 14 bytes for each of the
`i div (MaxChunkSize + 14)` full chunks and subtracting the size-dependent
single-chunk overhead of the remainder chunk `i mod (MaxChunkSize + 14)`,
in exact integer arithmetic (Go truncated div/mod). -/
theorem convertToFileSize_large_chunks (c b : Int) (h : MaxChunkSize + 123 ≤ c) :
    convertToFileSize c b =
      (c - b) - (Int.tdiv (c - b) (MaxChunkSize + 14)) * 14 -
        (Int.tmod (c - b) (MaxChunkSize + 14) -
          convertSmallFileSize (Int.tmod (c - b) (MaxChunkSize + 14))) := by
  unfold convertToFileSize
  rw [if_neg (by omega)]

/-- Witness for C6 at cumulativeSize = 600000, blockSize = 100 (above the
chunking threshold, spanning multiple chunks). -/
theorem convertToFileSize_large_chunks_witness :
    MaxChunkSize + 123 ≤ (600000 : Int) ∧
    convertToFileSize 600000 100 =
      (600000 - 100) - (Int.tdiv (600000 - 100) (MaxChunkSize + 14)) * 14 -
        (Int.tmod (600000 - 100) (MaxChunkSize + 14) -
          convertSmallFileSize (Int.tmod (600000 - 100) (MaxChunkSize + 14))) :=
  ⟨by decide, convertToFileSize_large_chunks 600000 100 (by decide)⟩

/-- C9 counterexample: at cumulativeSize = 6 (which satisfies
1 ≤ 6 ≤ 6), the decoder returns 6 - 6 = 0, which is not strictly
negative, so "strictly negative for every 1 ≤ cumulativeSize ≤ 6" is
false at 6. -/
theorem convertSmallFileSize_negative_counterexample :
    convertSmallFileSize 6 = 0 ∧
    ¬ convertSmallFileSize 6 < 0 ∧
    objectSizeMethod (newObject "f" { hash := "Qm", numLinks := 0, blockSize := 0, cumulativeSize := 6 }) = 0 := by
  refine ⟨by decide, by decide, ?_⟩
  unfold objectSizeMethod newObject convertToFileSize MaxChunkSize convertSmallFileSize
  decide

/-- C9 (amended): for every cumulativeSize with 1 ≤ cumulativeSize ≤ 6
the single-chunk decoder returns `cumulativeSize - 6`, which a stat'd
object publicly reports as its `Size()`; this value is strictly negative
exactly when cumulativeSize ≤ 5 (at 6 it is zero): the decoder does not
guarantee non-negative output for non-zero cumulative sizes. -/
theorem convertSmallFileSize_negative (c : Int) (h1 : 1 ≤ c) (h6 : c ≤ 6)
    (remote : String) (st : Stat) (hc : st.cumulativeSize = c) :
    convertSmallFileSize c = c - 6 ∧
    objectSizeMethod (newObject remote st) = c - 6 ∧
    (c ≤ 5 → convertSmallFileSize c < 0 ∧ objectSizeMethod (newObject remote st) < 0) := by
  have hsmall : convertSmallFileSize c = c - 6 := by
    unfold convertSmallFileSize
    split_ifs <;> omega
  have hobj : objectSizeMethod (newObject remote st) = convertSmallFileSize c := by
    unfold objectSizeMethod newObject convertToFileSize
    simp only [hc]
    rw [if_pos (by unfold MaxChunkSize; omega)]
  refine ⟨hsmall, by rw [hobj, hsmall], fun h5 => ⟨by rw [hsmall]; omega, by rw [hobj, hsmall]; omega⟩⟩

/-- Witness for the amended C9 at cumulativeSize = 3. -/
theorem convertSmallFileSize_negative_witness :
    (1 : Int) ≤ 3 ∧ (3 : Int) ≤ 6 ∧
    (convertSmallFileSize 3 = 3 - 6 ∧
     objectSizeMethod (newObject "f" { hash := "Qm", numLinks := 0, blockSize := 0, cumulativeSize := 3 }) = 3 - 6 ∧
     ((3 : Int) ≤ 5 → convertSmallFileSize 3 < 0 ∧
       objectSizeMethod (newObject "f" { hash := "Qm", numLinks := 0, blockSize := 0, cumulativeSize := 3 }) < 0)) :=
  ⟨by decide, by decide,
   convertSmallFileSize_negative 3 (by decide) (by decide) "f"
     { hash := "Qm", numLinks := 0, blockSize := 0, cumulativeSize := 3 } rfl⟩

/-- A path-prefix (ancestor-or-equal) relation implies the raw Go string
prefix relation tested by the code. -/
theorem isPathAncestorOf_imp_goHasPrefix {a b : String}
    (h : isPathAncestorOf a b = true) : goHasPrefix b a = true := by
  unfold isPathAncestorOf at h
  unfold goHasPrefix
  rw [Bool.or_eq_true, decide_eq_true_iff, List.isPrefixOf_iff_prefix] at h
  rw [List.isPrefixOf_iff_prefix]
  cases h with
  | inl heq => exact heq ▸ List.prefix_refl _
  | inr hpre => exact (List.prefix_append a.data [forwardSlash]).trans hpre

/-- The nested prefix-conflict loop fires as soon as one conflicting pair
exists. -/
theorem hasConflict_of_pair {ext loc : List String} {e l : String}
    (he : e ∈ ext) (hl : l ∈ loc)
    (hp : goHasPrefix e l = true ∨ goHasPrefix l e = true) :
    hasConflict ext loc = true := by
  unfold hasConflict
  rw [List.any_eq_true]
  refine ⟨e, he, ?_⟩
  rw [List.any_eq_true]
  refine ⟨l, hl, ?_⟩
  rcases hp with hp | hp <;> simp [hp]

/-- The nested prefix-conflict loop finds nothing when no pair of changed
paths is in the raw string prefix relation. -/
theorem hasConflict_eq_false {ext loc : List String}
    (h : ∀ e ∈ ext, ∀ l ∈ loc,
      goHasPrefix e l = false ∧ goHasPrefix l e = false) :
    hasConflict ext loc = false := by
  unfold hasConflict
  rw [List.any_eq_false]
  intro e he
  rw [Bool.not_eq_true, List.any_eq_false]
  intro l hl
  rw [Bool.not_eq_true]
  simp [(h e he l hl).1, (h e he l hl).2]

/-- A fully applied diff entry issues exactly its canonical calls. -/
theorem applyChange_ok_calls {σ : Type} (env : PersistEnv σ)
    (change : ObjectChange) (w : σ) (cs : List Call) (w1 : σ)
    (h : applyChange env change w = (cs, w1, Except.ok ())) :
    cs = changeCalls change := by
  cases hb : change.before with
  | none =>
    cases ha : change.after with
    | none =>
      simp only [applyChange, applyChangeAfter, hb, ha, Prod.mk.injEq] at h
      rw [← h.1]
      simp [changeCalls, hb, ha]
    | some a =>
      cases hcp : env.filesCp ("/ipfs/" ++ a) ("/" ++ change.path) w with
      | error e =>
        simp only [applyChange, applyChangeAfter, hb, ha, hcp] at h
        simp at h
      | ok w2 =>
        simp only [applyChange, applyChangeAfter, hb, ha, hcp, Prod.mk.injEq] at h
        rw [← h.1]
        simp [changeCalls, hb, ha]
  | some b =>
    cases hrm : env.filesRm ("/" ++ change.path) w with
    | error e =>
      simp only [applyChange, applyChangeAfter, hb, hrm] at h
      simp at h
    | ok w2 =>
      cases ha : change.after with
      | none =>
        simp only [applyChange, applyChangeAfter, hb, ha, hrm, Prod.mk.injEq] at h
        rw [← h.1]
        simp [changeCalls, hb, ha]
      | some a =>
        cases hcp : env.filesCp ("/ipfs/" ++ a) ("/" ++ change.path) w2 with
        | error e =>
          simp only [applyChange, applyChangeAfter, hb, ha, hrm, hcp] at h
          simp at h
        | ok w3 =>
          simp only [applyChange, applyChangeAfter, hb, ha, hrm, hcp, Prod.mk.injEq] at h
          rw [← h.1]
          simp [changeCalls, hb, ha]

/-- A fully applied change list issues exactly the canonical mutation
call sequence, in diff order. -/
theorem applyChanges_ok_calls {σ : Type} (env : PersistEnv σ) :
    ∀ (cs : List ObjectChange) (w : σ) (calls : List Call) (w1 : σ),
      applyChanges env cs w = (calls, w1, Except.ok ()) →
      calls = canonicalCalls cs := by
  intro cs
  induction cs with
  | nil =>
    intro w calls w1 h
    unfold applyChanges at h
    simp only [Prod.mk.injEq] at h
    simp [canonicalCalls, h.1.symm]
  | cons change rest ih =>
    intro w calls w1 h
    rcases hc : applyChange env change w with ⟨cs0, w0, r0⟩
    cases r0 with
    | error e =>
      simp only [applyChanges, hc] at h
      simp at h
    | ok u =>
      rcases happ : applyChanges env rest w0 with ⟨cs2, w2, r2⟩
      simp only [applyChanges, hc, happ, Prod.mk.injEq] at h
      obtain ⟨hcalls, hw, hr⟩ := h
      subst hr
      simp only [canonicalCalls, ← applyChange_ok_calls env change w cs0 w0 hc,
        ← ih w0 cs2 w2 happ, ← hcalls]

/-- Canonical mutation call sequences consist only of mutation calls. -/
theorem canonicalCalls_filter (cs : List ObjectChange) :
    (canonicalCalls cs).filter isMutationCall = canonicalCalls cs := by
  induction cs with
  | nil => rfl
  | cons change rest ih =>
    unfold canonicalCalls changeCalls
    cases change.before <;> cases change.after <;>
      simp [List.filter_append, isMutationCall, ih]

/-- C7: whenever persistence is triggered with `current == initial` it is
a no-op: it returns immediately, issues no remote call, and leaves the
root handle and the external world unchanged. -/
theorem persist_clean_noop {σ : Type} (env : PersistEnv σ) (r : Root) (w : σ)
    (h : r.hash = r.initialHash) :
    persist env r w = ⟨[], .ok (), r, w⟩ := by
  unfold persist
  rw [if_pos h]

/-- Witness for C7: a clean MFS root persists as a no-op. -/
theorem persist_clean_noop_witness :
    cleanRoot.hash = cleanRoot.initialHash ∧
    persist conflictEnv cleanRoot () = ⟨[], .ok (), cleanRoot, ()⟩ :=
  ⟨rfl, persist_clean_noop conflictEnv cleanRoot () rfl⟩

/-- C1: during MFS persistence with a dirty session and a moved external
pointer, if some external changed path is a path-prefix of some local
changed path or vice versa, the run aborts with the
concurrent-modification panic before any change is applied: no remove or
copy call is issued, and the root hashes and the external world are left
unchanged. -/
theorem persist_conflict_aborts {σ : Type} (env : PersistEnv σ) (r : Root)
    (w : σ)
    (hMFS : r.isMFS = true)
    (hdirty : r.hash ≠ r.initialHash)
    (ext : String) (hstat : env.filesStat w = .ok ext)
    (hmoved : ext ≠ r.initialHash)
    (d : Diff) (hd : env.objectDiff r.initialHash r.hash = .ok d)
    (ed : Diff) (hed : env.objectDiff ext r.initialHash = .ok ed)
    (e l : String)
    (he : e ∈ listChangedPath ed.changes) (hl : l ∈ listChangedPath d.changes)
    (hpre : isPathAncestorOf e l = true ∨ isPathAncestorOf l e = true) :
    (persist env r w).outcome = .error .concurrentModification ∧
    (persist env r w).calls.filter isMutationCall = [] ∧
    (persist env r w).root = r ∧
    (persist env r w).world = w := by
  have hconf : hasConflict (listChangedPath ed.changes)
      (listChangedPath d.changes) = true := by
    apply hasConflict_of_pair he hl
    rcases hpre with hp | hp
    · exact Or.inr (isPathAncestorOf_imp_goHasPrefix hp)
    · exact Or.inl (isPathAncestorOf_imp_goHasPrefix hp)
  have hred : persist env r w =
      ⟨[Call.filesStat "/", Call.objectDiff r.initialHash r.hash,
        Call.objectDiff ext r.initialHash],
       .error .concurrentModification, r, w⟩ := by
    simp only [persist, persistToMFS, hstat, hd, hed, if_neg hdirty, hMFS,
      eq_self_iff_true, ite_true, if_pos hmoved, if_pos hconf,
      List.cons_append, List.nil_append]
  rw [hred]
  exact ⟨rfl, by simp [isMutationCall], rfl, rfl⟩

/-- Witness for C1: external edit at `x`, local edit at `x/sub`. -/
theorem persist_conflict_aborts_witness :
    dirtyRoot.isMFS = true ∧
    dirtyRoot.hash ≠ dirtyRoot.initialHash ∧
    conflictEnv.filesStat () = .ok "B" ∧
    ("B" : String) ≠ dirtyRoot.initialHash ∧
    conflictEnv.objectDiff dirtyRoot.initialHash dirtyRoot.hash =
      .ok ⟨[⟨"x/sub", none, some "H1"⟩]⟩ ∧
    conflictEnv.objectDiff "B" dirtyRoot.initialHash =
      .ok ⟨[⟨"x", none, some "H2"⟩]⟩ ∧
    "x" ∈ listChangedPath [ObjectChange.mk "x" none (some "H2")] ∧
    "x/sub" ∈ listChangedPath [ObjectChange.mk "x/sub" none (some "H1")] ∧
    isPathAncestorOf "x" "x/sub" = true ∧
    ((persist conflictEnv dirtyRoot ()).outcome =
        .error .concurrentModification ∧
     (persist conflictEnv dirtyRoot ()).calls.filter isMutationCall = [] ∧
     (persist conflictEnv dirtyRoot ()).root = dirtyRoot ∧
     (persist conflictEnv dirtyRoot ()).world = ()) :=
  ⟨rfl, by decide, rfl, by decide, rfl, rfl,
   by simp [listChangedPath], by simp [listChangedPath], by decide,
   persist_conflict_aborts conflictEnv dirtyRoot () rfl (by decide)
     "B" rfl (by decide)
     ⟨[⟨"x/sub", none, some "H1"⟩]⟩ rfl
     ⟨[⟨"x", none, some "H2"⟩]⟩ rfl
     "x" "x/sub" (by simp [listChangedPath]) (by simp [listChangedPath])
     (Or.inl (by decide))⟩

/-- C2 counterexample: the external session edited the top-level entry
`x` and the local session edited the unrelated sibling entry `xy` —
neither path is a path-prefix (ancestor/descendant) of the other — yet
reconciliation aborts with the concurrent-modification panic and applies
no local change, because the code compares raw string prefixes and `"x"`
is a string prefix of `"xy"`. -/
theorem persist_disjoint_merges_counterexample :
    isPathAncestorOf "x" "xy" = false ∧
    isPathAncestorOf "xy" "x" = false ∧
    (persist siblingEnv dirtyRoot ()).outcome =
      .error .concurrentModification ∧
    (persist siblingEnv dirtyRoot ()).calls.filter isMutationCall = [] ∧
    (persist siblingEnv dirtyRoot ()).root = dirtyRoot :=
  ⟨by decide, by decide, rfl, rfl, rfl⟩

/-- C2 (amended): during MFS persistence with a dirty session and a moved
external pointer, if no external changed path is a raw string prefix of a
local changed path or vice versa (in particular for sibling edits under
unrelated subtrees such as `/x` and `/y`), reconciliation succeeds: every
local change is applied onto the external pointer in diff order (a remove
for a present `Before`, a copy of the new node for a present `After`),
and the final root hashes equal the freshly stat'd hash of the external
world produced by folding all local changes over the externally edited
world. -/
theorem persist_disjoint_merges {σ : Type} (env : PersistEnv σ) (r : Root)
    (w : σ)
    (hMFS : r.isMFS = true)
    (hdirty : r.hash ≠ r.initialHash)
    (ext : String) (hstat : env.filesStat w = .ok ext)
    (hmoved : ext ≠ r.initialHash)
    (d : Diff) (hd : env.objectDiff r.initialHash r.hash = .ok d)
    (ed : Diff) (hed : env.objectDiff ext r.initialHash = .ok ed)
    (hnoconf : ∀ e ∈ listChangedPath ed.changes,
      ∀ l ∈ listChangedPath d.changes,
        goHasPrefix e l = false ∧ goHasPrefix l e = false)
    (cs1 : List Call) (w1 : σ)
    (happly : applyChanges env d.changes w = (cs1, w1, .ok ()))
    (h2 : String) (hstat2 : env.filesStat w1 = .ok h2) :
    (persist env r w).outcome = .ok () ∧
    (persist env r w).calls.filter isMutationCall = canonicalCalls d.changes ∧
    (persist env r w).root = { r with hash := h2, initialHash := h2 } ∧
    (persist env r w).world = w1 := by
  have hconf := hasConflict_eq_false hnoconf
  have hcanon := applyChanges_ok_calls env d.changes w cs1 w1 happly
  have hnc : ¬ (hasConflict (listChangedPath ed.changes)
      (listChangedPath d.changes) = true) := by
    simp [hconf]
  have hred : persist env r w =
      ⟨([Call.filesStat "/", Call.objectDiff r.initialHash r.hash] ++
          [Call.objectDiff ext r.initialHash]) ++ cs1 ++ [Call.filesStat "/"],
       .ok (), { r with hash := h2, initialHash := h2 }, w1⟩ := by
    simp only [persist, persistToMFS, persistApply, hstat, hd, hed, happly,
      hstat2, if_neg hdirty, hMFS, eq_self_iff_true, ite_true,
      if_pos hmoved, if_neg hnc, List.cons_append, List.nil_append,
      List.append_assoc]
  rw [hred]
  refine ⟨rfl, ?_, rfl, rfl⟩
  simp [List.filter_append, isMutationCall, hcanon, canonicalCalls_filter]

/-- Witness for the amended C2: external edit at `/x`, local edit at
`/y`; reconciliation succeeds and the final external world contains both
edits. -/
theorem persist_disjoint_merges_witness :
    dirtyRoot.isMFS = true ∧
    dirtyRoot.hash ≠ dirtyRoot.initialHash ∧
    mergeEnv.filesStat extWorld = .ok (worldHash extWorld) ∧
    worldHash extWorld ≠ dirtyRoot.initialHash ∧
    mergeEnv.objectDiff dirtyRoot.initialHash dirtyRoot.hash =
      .ok ⟨[⟨"y", none, some "Hy"⟩]⟩ ∧
    mergeEnv.objectDiff (worldHash extWorld) dirtyRoot.initialHash =
      .ok ⟨[⟨"x", none, some "H2"⟩]⟩ ∧
    applyChanges mergeEnv [⟨"y", none, some "Hy"⟩] extWorld =
      ([Call.filesCp "/ipfs/Hy" "/y"],
       [("/x", "/ipfs/Hx"), ("/y", "/ipfs/Hy")], .ok ()) ∧
    mergeEnv.filesStat [("/x", "/ipfs/Hx"), ("/y", "/ipfs/Hy")] =
      .ok (worldHash [("/x", "/ipfs/Hx"), ("/y", "/ipfs/Hy")]) ∧
    ((persist mergeEnv dirtyRoot extWorld).outcome = .ok () ∧
     (persist mergeEnv dirtyRoot extWorld).calls.filter isMutationCall =
       canonicalCalls [⟨"y", none, some "Hy"⟩] ∧
     (persist mergeEnv dirtyRoot extWorld).root =
       { dirtyRoot with
           hash := worldHash [("/x", "/ipfs/Hx"), ("/y", "/ipfs/Hy")]
           initialHash := worldHash [("/x", "/ipfs/Hx"), ("/y", "/ipfs/Hy")] } ∧
     (persist mergeEnv dirtyRoot extWorld).world =
       [("/x", "/ipfs/Hx"), ("/y", "/ipfs/Hy")]) ∧
    ("/x", "/ipfs/Hx") ∈ (persist mergeEnv dirtyRoot extWorld).world ∧
    ("/y", "/ipfs/Hy") ∈ (persist mergeEnv dirtyRoot extWorld).world :=
  ⟨rfl, by decide, rfl, by decide, rfl, rfl, rfl, rfl,
   persist_disjoint_merges mergeEnv dirtyRoot extWorld rfl (by decide)
     (worldHash extWorld) rfl (by decide)
     ⟨[⟨"y", none, some "Hy"⟩]⟩ rfl
     ⟨[⟨"x", none, some "H2"⟩]⟩ rfl
     (by intro e he l hl
         simp [listChangedPath] at he hl
         subst he
         subst hl
         exact ⟨by decide, by decide⟩)
     [Call.filesCp "/ipfs/Hy" "/y"]
     [("/x", "/ipfs/Hx"), ("/y", "/ipfs/Hy")] rfl
     (worldHash [("/x", "/ipfs/Hx"), ("/y", "/ipfs/Hy")]) rfl,
   by decide, by decide⟩

/-- C8: root creation classifies configuration into exactly one outcome:
any path shape other than empty, `/ipfs/<hash>` or `/ipns/<name>` fails
with the invalid-binding-path error; an empty path on the public gateway
fails with the gateway-cannot-be-mutable-root error; an `/ipfs/` path
yields a read-only handle; an empty path on a non-gateway endpoint
yields a writable MFS handle whose `initial` and `current` hashes are
the store's mutable-root hash; an `/ipns/` path yields a handle that is
writable exactly when a local signing key matching the name was found
(recorded as a non-empty key name). -/
theorem NewRoot_classification (ipfsRoot endpoint : String)
    (env : NewRootEnv) :
    ((pathSplit ipfsRoot).1 ≠ "/ipfs/" → (pathSplit ipfsRoot).1 ≠ "/ipns/" →
      ipfsRoot ≠ "" →
      NewRoot ipfsRoot endpoint env = .error .invalidBindingPath) ∧
    (ipfsRoot = "" → endpoint = PublicGateway →
      NewRoot ipfsRoot endpoint env = .error .gatewayCannotBeMutableRoot) ∧
    ((pathSplit ipfsRoot).1 = "/ipfs/" →
      NewRoot ipfsRoot endpoint env =
        .ok (mkNewRoot (pathSplit ipfsRoot).2 "" "" false
          (decide (endpoint = PublicGateway))) ∧
      ∀ st, NewRoot ipfsRoot endpoint env = .ok st →
        st.isReadOnly = true) ∧
    (ipfsRoot = "" → endpoint ≠ PublicGateway →
      ∀ h, env.filesStatRoot = .ok h →
        NewRoot ipfsRoot endpoint env =
          .ok { initialHash := h, hash := h, ipnsPath := "", ipnsKey := ""
                isMFS := true, isReadOnly := false }) ∧
    ((pathSplit ipfsRoot).1 = "/ipns/" →
      ∀ st, NewRoot ipfsRoot endpoint env = .ok st →
        (st.isReadOnly = false ↔ st.ipnsKey ≠ "") ∧
        (endpoint ≠ PublicGateway → ∀ keys, env.keyList = .ok keys →
          st.ipnsKey = findIpnsKey keys (pathSplit ipfsRoot).2)) := by
  refine ⟨?_, ?_, ?_, ?_, ?_⟩
  · intro h1 h2 h3
    simp only [NewRoot, if_neg h1, if_neg h2, if_neg h3]
  · intro h0 hg
    subst h0
    subst hg
    rfl
  · intro hb
    have hne : (pathSplit ipfsRoot).1 ≠ "/ipns/" := by rw [hb]; decide
    constructor
    · simp only [NewRoot, if_pos hb]
    · intro st hst
      simp only [NewRoot, if_pos hb, Except.ok.injEq] at hst
      rw [← hst]
      simp [mkNewRoot]
  · intro h0 hgne h hstat
    subst h0
    have hgf : decide (endpoint = PublicGateway) = false := by
      simp [hgne]
    simp only [NewRoot, hgf, Bool.false_eq_true, if_false, hstat,
      if_neg (by decide : ¬ (pathSplit "").1 = "/ipfs/"),
      if_neg (by decide : ¬ (pathSplit "").1 = "/ipns/"),
      if_pos rfl]
    rfl
  · intro hb st hst
    have hnf : (pathSplit ipfsRoot).1 ≠ "/ipfs/" := by rw [hb]; decide
    simp only [NewRoot, if_neg hnf, if_pos hb] at hst
    by_cases hg : endpoint = PublicGateway
    · have hgt : decide (endpoint = PublicGateway) = true := by simp [hg]
      rw [hgt] at hst
      simp only [if_true, ite_true] at hst
      cases hr : env.nameResolve ipfsRoot with
      | error e => rw [hr] at hst; simp at hst
      | ok resolvedPath =>
        rw [hr] at hst
        simp only [Except.ok.injEq] at hst
        rw [← hst]
        refine ⟨by simp [mkNewRoot], ?_⟩
        intro hne
        exact absurd hg hne
    · have hgf : decide (endpoint = PublicGateway) = false := by simp [hg]
      rw [hgf] at hst
      simp only [Bool.false_eq_true, if_false, ite_false] at hst
      cases hk : env.keyList with
      | error e => rw [hk] at hst; simp at hst
      | ok keys =>
        rw [hk] at hst
        cases hr : env.nameResolve ipfsRoot with
        | error e => rw [hr] at hst; simp at hst
        | ok resolvedPath =>
          rw [hr] at hst
          simp only [Except.ok.injEq] at hst
          rw [← hst]
          refine ⟨by simp [mkNewRoot], ?_⟩
          intro hne keys2 hk2
          injection hk2 with hkeq
          rw [← hkeq]
          simp [mkNewRoot]

/-- Witness for C8, one instance per classification case. -/
theorem NewRoot_classification_witness :
    ((pathSplit "QmBogus").1 ≠ "/ipfs/" ∧ (pathSplit "QmBogus").1 ≠ "/ipns/" ∧
      ("QmBogus" : String) ≠ "" ∧
      NewRoot "QmBogus" "http://localhost:5001" newRootEnv1 =
        .error .invalidBindingPath) ∧
    NewRoot "" PublicGateway newRootEnv1 =
      .error .gatewayCannotBeMutableRoot ∧
    ((pathSplit "/ipfs/QmX").1 = "/ipfs/" ∧
      (mkNewRoot "QmX" "" "" false false).isReadOnly = true) ∧
    (("http://localhost:5001" : String) ≠ PublicGateway ∧
      newRootEnv1.filesStatRoot = .ok "QmRootHash" ∧
      NewRoot "" "http://localhost:5001" newRootEnv1 =
        .ok { initialHash := "QmRootHash", hash := "QmRootHash"
              ipnsPath := "", ipnsKey := ""
              isMFS := true, isReadOnly := false }) ∧
    ((pathSplit "/ipns/K1").1 = "/ipns/" ∧
      NewRoot "/ipns/K1" "http://localhost:5001" newRootEnv1 =
        .ok (mkNewRoot "QmResolved" "/ipns/K1" "mykey" false false) ∧
      ((mkNewRoot "QmResolved" "/ipns/K1" "mykey" false false).isReadOnly = false ↔
        (mkNewRoot "QmResolved" "/ipns/K1" "mykey" false false).ipnsKey ≠ "") ∧
      (mkNewRoot "QmResolved" "/ipns/K1" "mykey" false false).ipnsKey =
        findIpnsKey [⟨"K1", "mykey"⟩] (pathSplit "/ipns/K1").2) :=
  ⟨⟨by decide, by decide, by decide,
    (NewRoot_classification "QmBogus" "http://localhost:5001" newRootEnv1).1
      (by decide) (by decide) (by decide)⟩,
   (NewRoot_classification "" PublicGateway newRootEnv1).2.1 rfl rfl,
   ⟨by decide,
    (NewRoot_classification "/ipfs/QmX" "http://localhost:5001" newRootEnv1).2.2.1
      (by decide) |>.2 (mkNewRoot "QmX" "" "" false false) rfl⟩,
   ⟨by decide, rfl,
    (NewRoot_classification "" "http://localhost:5001" newRootEnv1).2.2.2.1
      rfl (by decide) "QmRootHash" rfl⟩,
   ⟨by decide, rfl,
    ((NewRoot_classification "/ipns/K1" "http://localhost:5001" newRootEnv1).2.2.2.2
      (by decide) (mkNewRoot "QmResolved" "/ipns/K1" "mykey" false false) rfl).1,
    ((NewRoot_classification "/ipns/K1" "http://localhost:5001" newRootEnv1).2.2.2.2
      (by decide) (mkNewRoot "QmResolved" "/ipns/K1" "mykey" false false) rfl).2
      (by decide) [⟨"K1", "mykey"⟩] rfl⟩⟩

/-- C3 counterexample: `NewRoot` classifies `/ipfs/QmX` as read-only,
yet `Put` on that handle is not rejected: it runs to success, issues the
`add` and mutating `object/patch/add-link` remote calls, and changes the
handle's current hash.  No `ReadOnlyRoot` error exists anywhere in the
code. -/
theorem readonly_mutation_counterexample :
    NewRoot "/ipfs/QmX" "http://localhost:5001" newRootEnv1 =
      .ok (mkNewRoot "QmX" "" "" false false) ∧
    (mkNewRoot "QmX" "" "" false false).isReadOnly = true ∧
    putOp allOkApi (mkNewRoot "QmX" "" "" false false) "" "f.txt" =
      ([FsCall.add "f.txt",
        FsCall.objectPatchAddLink "QmX" "f.txt" "QmAdded",
        FsCall.objectStat "QmNewRoot/f.txt",
        FsCall.ls "QmNewRoot/"],
       .ok (newObject "f.txt"
         { hash := "QmStat", numLinks := 0, blockSize := 4, cumulativeSize := 10 }),
       { mkNewRoot "QmX" "" "" false false with hash := "QmNewRoot" }) ∧
    FsCall.objectPatchAddLink "QmX" "f.txt" "QmAdded" ∈
      (putOp allOkApi (mkNewRoot "QmX" "" "" false false) "" "f.txt").1 ∧
    (putOp allOkApi (mkNewRoot "QmX" "" "" false false) "" "f.txt").2.2.hash ≠ "QmX" :=
  ⟨rfl, by decide, rfl, by decide, by decide⟩

/-- C3 (amended): the read-only classification is not enforced at the
mutation entry points: on any handle — read-only included — `Put`
proceeds to issue its `add` and mutating add-link calls and advances the
current hash; the only effect of the read-only flag is that `NewRoot`
registers no persistence callbacks for read-only handles (their
mutations are never pushed to the external pointer). -/
theorem readonly_not_enforced (api : FsApi) (r : Root)
    (froot srcRemote addedHash newHash : String)
    (hro : r.isReadOnly = true)
    (ha : api.add (pathSplit srcRemote).2 = .ok addedHash)
    (hp : api.objectPatchAddLink r.hash (relativePath froot srcRemote) addedHash = .ok newHash) :
    registersPersistence r = false ∧
    (putOp api r froot srcRemote).2.2 = { r with hash := newHash } ∧
    FsCall.add (pathSplit srcRemote).2 ∈ (putOp api r froot srcRemote).1 ∧
    FsCall.objectPatchAddLink r.hash (relativePath froot srcRemote) addedHash ∈
      (putOp api r froot srcRemote).1 := by
  refine ⟨by simp [registersPersistence, hro], ?_, ?_, ?_⟩ <;>
    simp [putOp, ha, hp]

/-- Witness for the amended C3 on the read-only `/ipfs/QmX` handle. -/
theorem readonly_not_enforced_witness :
    (mkNewRoot "QmX" "" "" false false).isReadOnly = true ∧
    allOkApi.add (pathSplit "f.txt").2 = .ok "QmAdded" ∧
    allOkApi.objectPatchAddLink (mkNewRoot "QmX" "" "" false false).hash
      (relativePath "" "f.txt") "QmAdded" = .ok "QmNewRoot" ∧
    (registersPersistence (mkNewRoot "QmX" "" "" false false) = false ∧
     (putOp allOkApi (mkNewRoot "QmX" "" "" false false) "" "f.txt").2.2 =
       { mkNewRoot "QmX" "" "" false false with hash := "QmNewRoot" } ∧
     FsCall.add (pathSplit "f.txt").2 ∈
       (putOp allOkApi (mkNewRoot "QmX" "" "" false false) "" "f.txt").1 ∧
     FsCall.objectPatchAddLink (mkNewRoot "QmX" "" "" false false).hash
       (relativePath "" "f.txt") "QmAdded" ∈
       (putOp allOkApi (mkNewRoot "QmX" "" "" false false) "" "f.txt").1) :=
  ⟨by decide, rfl, rfl,
   readonly_not_enforced allOkApi (mkNewRoot "QmX" "" "" false false)
     "" "f.txt" "QmAdded" "QmNewRoot" (by decide) rfl rfl⟩

/-- C4 counterexample: `DirMove` with a failing final remove-link call
surfaces the error but leaves the handle's hash at the intermediate
add-link result `H1INTER`, not at the starting hash `H0`: partial state
under the write lock. -/
theorem mutation_error_frame_counterexample :
    dirMoveOp dirMoveFailApi dm0 "" "" "src" "dst" =
      ([FsCall.objectStat "H0/dst", FsCall.objectStat "H0/src",
        FsCall.objectPatchAddLink "H0" "dst" "QmSrcDir",
        FsCall.objectPatchRmLink "H1INTER" "src"],
       some (FsError.api ApiErr.other), { dm0 with hash := "H1INTER" }) ∧
    ({ dm0 with hash := "H1INTER" }).hash ≠ dm0.hash :=
  ⟨rfl, by decide⟩

/-- C4 (amended): for `Mkdir`, `Rmdir`, `Purge` and `Object.Remove`, any
remote-call error surfaces and leaves the root unchanged; for `Put`, a
failure of the `add` or of the add-link call surfaces and leaves the
root unchanged (only the post-mutation stat-back runs after the hash
advances); for `DirMove`, an error surfaces and leaves the root
unchanged unless it comes from the final remove-link after a successful
add-link, in which case the hash is left at the intermediate add-link
result. -/
theorem mutation_error_frame (api : FsApi) (r : Root)
    (froot srcRoot p srcRemote dstRemote : String) :
    (∀ cs e r1, mkdirOp api r froot p = (cs, some e, r1) → r1 = r) ∧
    (∀ cs e r1, rmdirOp api r froot p = (cs, some e, r1) → r1 = r) ∧
    (∀ cs e r1, purgeOp api r froot = (cs, some e, r1) → r1 = r) ∧
    (∀ cs e r1, removeOp api r froot p = (cs, some e, r1) → r1 = r) ∧
    (∀ e, api.add (pathSplit srcRemote).2 = .error e →
      putOp api r froot srcRemote =
        ([FsCall.add (pathSplit srcRemote).2], .error (.api e), r)) ∧
    (∀ h e, api.add (pathSplit srcRemote).2 = .ok h →
      api.objectPatchAddLink r.hash (relativePath froot srcRemote) h = .error e →
      putOp api r froot srcRemote =
        ([FsCall.add (pathSplit srcRemote).2,
          FsCall.objectPatchAddLink r.hash (relativePath froot srcRemote) h],
         .error (.api e), r)) ∧
    (∀ cs e r1,
      dirMoveOp api r froot srcRoot srcRemote dstRemote = (cs, some e, r1) →
      r1 = r ∨
      ∃ srcStat h1 e2,
        api.objectStat (pathJoin r.hash (relativePath srcRoot srcRemote)) =
          .ok srcStat ∧
        api.objectPatchAddLink r.hash (relativePath froot dstRemote)
          srcStat.hash = .ok h1 ∧
        api.objectPatchRmLink h1 (relativePath srcRoot srcRemote) =
          .error e2 ∧
        e = .api e2 ∧ r1 = { r with hash := h1 }) := by
  refine ⟨?_, ?_, ?_, ?_, ?_, ?_, ?_⟩
  · intro cs e r1 h
    cases hnd : api.objectNewDir with
    | error e0 =>
      simp only [mkdirOp, hnd, Prod.mk.injEq] at h
      exact h.2.2.symm
    | ok emptyDirHash =>
      cases hadd : api.objectPatchAddLink r.hash (relativePath froot p) emptyDirHash with
      | error e0 =>
        simp only [mkdirOp, hnd, hadd, Prod.mk.injEq] at h
        exact h.2.2.symm
      | ok newHash =>
        simp only [mkdirOp, hnd, hadd, Prod.mk.injEq] at h
        simp at h
  · intro cs e r1 h
    cases hstat : api.objectStat (pathJoin r.hash (relativePath froot p)) with
    | error e0 =>
      simp only [rmdirOp, hstat, Prod.mk.injEq] at h
      exact h.2.2.symm
    | ok stat =>
      by_cases hl : stat.numLinks > 0
      · simp only [rmdirOp, hstat, if_pos hl, Prod.mk.injEq] at h
        exact h.2.2.symm
      · cases hrm : api.objectPatchRmLink r.hash (relativePath froot p) with
        | error e0 =>
          simp only [rmdirOp, hstat, if_neg hl, hrm, Prod.mk.injEq] at h
          exact h.2.2.symm
        | ok newHash =>
          simp only [rmdirOp, hstat, if_neg hl, hrm, Prod.mk.injEq] at h
          simp at h
  · intro cs e r1 h
    by_cases hr0 : froot = ""
    · cases hnd : api.objectNewDir with
      | error e0 =>
        simp only [purgeOp, if_pos hr0, hnd, Prod.mk.injEq] at h
        exact h.2.2.symm
      | ok emptyDirHash =>
        simp only [purgeOp, if_pos hr0, hnd, Prod.mk.injEq] at h
        simp at h
    · cases hrm : api.objectPatchRmLink r.hash froot with
      | error e0 =>
        simp only [purgeOp, if_neg hr0, hrm, Prod.mk.injEq] at h
        exact h.2.2.symm
      | ok newHash =>
        simp only [purgeOp, if_neg hr0, hrm, Prod.mk.injEq] at h
        simp at h
  · intro cs e r1 h
    cases hrm : api.objectPatchRmLink r.hash (relativePath froot p) with
    | error e0 =>
      simp only [removeOp, hrm, Prod.mk.injEq] at h
      exact h.2.2.symm
    | ok newHash =>
      simp only [removeOp, hrm, Prod.mk.injEq] at h
      simp at h
  · intro e ha
    simp only [putOp, ha]
  · intro h e ha hp
    simp only [putOp, ha, hp]
  · intro cs e r1 h
    cases hds : api.objectStat (pathJoin r.hash (relativePath froot dstRemote)) with
    | ok destStat =>
      simp only [dirMoveOp, hds, Prod.mk.injEq] at h
      exact Or.inl h.2.2.symm
    | error e0 =>
      cases hss : api.objectStat (pathJoin r.hash (relativePath srcRoot srcRemote)) with
      | error e1 =>
        simp only [dirMoveOp, hds, hss, Prod.mk.injEq] at h
        exact Or.inl h.2.2.symm
      | ok srcStat =>
        cases hal : api.objectPatchAddLink r.hash (relativePath froot dstRemote) srcStat.hash with
        | error e1 =>
          simp only [dirMoveOp, hds, hss, hal, Prod.mk.injEq] at h
          exact Or.inl h.2.2.symm
        | ok h1 =>
          cases hrl : api.objectPatchRmLink h1 (relativePath srcRoot srcRemote) with
          | error e1 =>
            simp only [dirMoveOp, hds, hss, hal, hrl, Prod.mk.injEq,
              Option.some.injEq] at h
            exact Or.inr ⟨srcStat, h1, e1, rfl, hal, hrl, h.2.1.symm, h.2.2.symm⟩
          | ok h2 =>
            simp only [dirMoveOp, hds, hss, hal, hrl, Prod.mk.injEq] at h
            simp at h

/-- Witness for the amended C4: each operation at a concrete failing
API, plus the DirMove partial-state case. -/
theorem mutation_error_frame_witness :
    (mkdirOp failApi dm0 "" "d").2.2 = dm0 ∧
    (rmdirOp failApi dm0 "" "d").2.2 = dm0 ∧
    (purgeOp failApi dm0 "").2.2 = dm0 ∧
    (removeOp failApi dm0 "" "o").2.2 = dm0 ∧
    putOp failApi dm0 "" "f.txt" =
      ([FsCall.add "f.txt"], .error (.api .other), dm0) ∧
    putOp addOnlyApi dm0 "" "f.txt" =
      ([FsCall.add "f.txt", FsCall.objectPatchAddLink "H0" "f.txt" "QmAdded"],
       .error (.api .err), dm0) ∧
    ({ dm0 with hash := "H1INTER" } = dm0 ∨
      ∃ srcStat h1 e2,
        dirMoveFailApi.objectStat (pathJoin dm0.hash (relativePath "" "src")) =
          .ok srcStat ∧
        dirMoveFailApi.objectPatchAddLink dm0.hash (relativePath "" "dst")
          srcStat.hash = .ok h1 ∧
        dirMoveFailApi.objectPatchRmLink h1 (relativePath "" "src") =
          .error e2 ∧
        (FsError.api ApiErr.other) = .api e2 ∧
        { dm0 with hash := "H1INTER" } = { dm0 with hash := h1 }) :=
  ⟨(mutation_error_frame failApi dm0 "" "" "d" "f.txt" "dst").1
     [FsCall.objectNewDir] (.api .other) (mkdirOp failApi dm0 "" "d").2.2 rfl,
   (mutation_error_frame failApi dm0 "" "" "d" "f.txt" "dst").2.1
     [FsCall.objectStat "H0/d"] .errorDirNotFound
     (rmdirOp failApi dm0 "" "d").2.2 rfl,
   (mutation_error_frame failApi dm0 "" "" "d" "f.txt" "dst").2.2.1
     [FsCall.objectNewDir] (.api .other) (purgeOp failApi dm0 "").2.2 rfl,
   (mutation_error_frame failApi dm0 "" "" "o" "f.txt" "dst").2.2.2.1
     [FsCall.objectPatchRmLink "H0" "o"] (.api .other)
     (removeOp failApi dm0 "" "o").2.2 rfl,
   (mutation_error_frame failApi dm0 "" "" "d" "f.txt" "dst").2.2.2.2.1
     ApiErr.other rfl,
   (mutation_error_frame addOnlyApi dm0 "" "" "d" "f.txt" "dst").2.2.2.2.2.1
     "QmAdded" ApiErr.err rfl rfl,
   (mutation_error_frame dirMoveFailApi dm0 "" "" "d" "src" "dst").2.2.2.2.2.2
     [FsCall.objectStat "H0/dst", FsCall.objectStat "H0/src",
      FsCall.objectPatchAddLink "H0" "dst" "QmSrcDir",
      FsCall.objectPatchRmLink "H1INTER" "src"]
     (FsError.api ApiErr.other) { dm0 with hash := "H1INTER" } rfl⟩

/-- C10: whenever the inner `Put` fails, `Update` does not return
normally with that error — it unconditionally evaluates `o2.Size()` on
the nil object returned by the failed `Put`, a nil-pointer panic. -/
theorem update_panics_on_failed_put (api : FsApi) (r : Root)
    (froot srcRemote : String) (o : Object) (cs : List FsCall)
    (e : FsError) (r1 : Root)
    (h : putOp api r froot srcRemote = (cs, .error e, r1)) :
    updateOp api r froot o srcRemote = (cs, .panicked, r1) := by
  simp only [updateOp, h]

/-- Witness for C10: `Update` with a failing `add` call panics. -/
theorem update_panics_on_failed_put_witness :
    putOp failApi dm0 "" "f.txt" =
      ([FsCall.add "f.txt"], .error (.api .other), dm0) ∧
    updateOp failApi dm0 "" obj0 "f.txt" =
      ([FsCall.add "f.txt"], .panicked, dm0) :=
  ⟨rfl,
   update_panics_on_failed_put failApi dm0 "" "f.txt" obj0
     [FsCall.add "f.txt"] (.api .other) dm0 rfl⟩

end Ipfs
